import Mathlib

set_option maxRecDepth 4000

namespace FootballApp

/-- Embedding of the Fixture model rows (football_app/models.py): only the
fields the verified logic reads. Nullable columns become Option. -/
structure Fixture where
  statusLong : Option String
  date : Int
  league : Nat
  homeGoals : Option Nat
  awayGoals : Option Nat
deriving DecidableEq

/-- Fixture.is_finished: status_long == the literal Match Finished. -/
def fixtureIsFinished (m : Fixture) : Bool :=
  m.statusLong == some "Match Finished"

/-- Fixture.result: H for home win, A for away win, D for draw, none when the
fixture is not finished or either goal count is missing. -/
def fixtureResult (m : Fixture) : Option Char :=
  match m.homeGoals, m.awayGoals with
  | some hg, some ag =>
      if fixtureIsFinished m then
        if hg > ag then some 'H'
        else if ag > hg then some 'A'
        else some 'D'
      else none
  | _, _ => none

/-- Embedding of a MatchPredict row, with the referenced fixture inlined. -/
structure MatchPredict where
  user : Nat
  fixture : Fixture
  predictedResult : Char
  predictedHomeScore : Option Nat
  predictedAwayScore : Option Nat
  pointsEarned : Nat
deriving DecidableEq

/-- MatchPredict.is_correct: none when the fixture is not finished, else
whether the predicted result equals the derived result (a missing derived
result compares unequal to any predicted letter, as Python == with None). -/
def isCorrect (p : MatchPredict) : Option Bool :=
  if fixtureIsFinished p.fixture then
    some (fixtureResult p.fixture == some p.predictedResult)
  else none

/-- Python truthiness of is_correct (None and False are both falsy). -/
def isCorrectTruthy (p : MatchPredict) : Bool :=
  (isCorrect p).getD false

/-- MatchPredict.calculate_points: returns the points together with the
post-save prediction row (points_earned is persisted on the scoring path,
and the row is untouched on the early-return path). Score equality is the
Python == on nullable columns, so two missing values compare equal. -/
def calculatePoints (p : MatchPredict) : Nat × MatchPredict :=
  if !(fixtureIsFinished p.fixture) then (0, p)
  else
    let points :=
      if p.predictedHomeScore == p.fixture.homeGoals
          && p.predictedAwayScore == p.fixture.awayGoals then 5
      else if isCorrectTruthy p then 2
      else 0
    (points, { p with pointsEarned := points })

/-- Embedding of a Season row: the fields the season logic reads. league is
nullable (a season may be global / leagueless). -/
structure Season where
  id : Nat
  league : Option Nat
  startYear : Nat
  endYear : Option Nat
  isCurrent : Bool
  isActive : Bool
deriving DecidableEq

/-- Season.objects.filter(is_current=True).update(is_current=False): every
row whose current flag is set gets it cleared, with no league scoping. -/
def clearCurrentAll (db : List Season) : List Season :=
  db.map (fun t => if t.isCurrent then { t with isCurrent := false } else t)

/-- Django model save as an upsert keyed by primary key. -/
def upsertSeason (db : List Season) (s : Season) : List Season :=
  if db.any (fun t => t.id == s.id) then
    db.map (fun t => if t.id == s.id then s else t)
  else db ++ [s]

/-- Season.save: when the saved row is flagged current, first clear the
current flag of every current season in the table, then write the row. -/
def seasonSave (db : List Season) (s : Season) : List Season :=
  if s.isCurrent then upsertSeason (clearCurrentAll db) s
  else upsertSeason db s

/-- set_current_season command handle: look the season up by start and end
year; when exactly one row matches, clear the current flag on all seasons and
save the matched season as current; on lookup failure the table is left
unchanged (an error message is printed instead). -/
def setCurrentSeasonCmd (db : List Season) (y1 y2 : Nat) : List Season :=
  match db.filter (fun s => s.startYear == y1 && s.endYear == some y2) with
  | [s] => seasonSave (db.map (fun t => { t with isCurrent := false }))
             { s with isCurrent := true }
  | _ => db

/-- Scope test used by Season.get_current_season: with a league argument the
queries add league=league; without one they range over every season. -/
def seasonInScope (lg : Option Nat) (s : Season) : Bool :=
  match lg with
  | some l => s.league == some l
  | none => true

/-- QuerySet.first() under the model Meta ordering ["-start_year"]: the first
listed season among those with the greatest start year, none on an empty
queryset. -/
def firstByStartYearDesc : List Season → Option Season
  | [] => none
  | s :: rest =>
      match firstByStartYearDesc rest with
      | none => some s
      | some t => if t.startYear > s.startYear then some t else some s

/-- Season.get_current_season: objects.get on the current flag (scoped to the
league when given) — a unique match is returned, a missing match falls back
to the most recent active season of the scope, and several matches raise
MultipleObjectsReturned (the error value). -/
def getCurrentSeason (db : List Season) (lg : Option Nat) :
    Except Unit (Option Season) :=
  match db.filter (fun s => s.isCurrent && seasonInScope lg s) with
  | [s] => .ok (some s)
  | [] => .ok (firstByStartYearDesc
      (db.filter (fun s => s.isActive && seasonInScope lg s)))
  | _ => .error ()

/-- A current season of league 2, used as the frame-effect observer. -/
def c2Other : Season :=
  { id := 1, league := some 2, startYear := 2024, endYear := none
    isCurrent := true, isActive := true }

/-- A season of league 1 being saved as current. -/
def c2Saved : Season :=
  { id := 2, league := some 1, startYear := 2025, endYear := none
    isCurrent := true, isActive := true }

/-- The FIXTURE_STATUS_CHOICES table: short code, long name, coarse phase,
description. -/
def fixtureStatusChoices : List (String × String × String × String) :=
  [("TBD", "Time To Be Defined", "Scheduled", "Scheduled but date and time are not known"),
   ("NS", "Not Started", "Scheduled", ""),
   ("1H", "First Half, Kick Off", "In Play", "First half in play"),
   ("HT", "Halftime", "In Play", "Finished in the regular time"),
   ("2H", "Second Half, 2nd Half Started", "In Play", "Second half in play"),
   ("ET", "Extra Time", "In Play", "Extra time in play"),
   ("BT", "Break Time", "In Play", "Break during extra time"),
   ("P", "Penalty In Progress", "In Play", "Penaly played after extra time"),
   ("SUSP", "Match Suspended", "In Play", "Suspended by referee decision, may be rescheduled another day"),
   ("INT", "Match Interrupted", "In Play", "Interrupted by referee decision, should resume in a few minutes"),
   ("FT", "Match Finished", "Finished", "Finished in the regular time"),
   ("AET", "Match Finished", "Finished", "Finished after extra time without going to the penalty shootout"),
   ("PEN", "Match Finished", "Finished", "Finished after the penalty shootout"),
   ("PST", "Match Postponed", "Postponed", "Postponed to another day, once the new date and time is known the status will change to Not Started"),
   ("CANC", "Match Cancelled", "Cancelled", "Cancelled, match will not be played"),
   ("ABD", "Match Abandoned", "Abandoned", "Abandoned for various reasons"),
   ("AWD", "Technical Loss", "Not Played", ""),
   ("WO", "WalkOver", "Not Played", "Victory by forfeit or absence of competitor"),
   ("LIVE", "In Progress", "In Play", "Used in very rare cases")]

/-- Whether a status_long value belongs to the In Play phase of the table. -/
def isInPlayVariantLong (long : String) : Bool :=
  fixtureStatusChoices.any (fun e => e.2.1 == long && e.2.2.1 == "In Play")

/-- The status_long values blocked by the prediction guards in
MatchPredict.save, MatchPredictionForm.clean and BulkPredictionForm.clean. -/
def blockedStatuses : List String :=
  ["Match Finished", "In Progress", "First Half, Kick Off",
   "Second Half, 2nd Half Started", "Extra Time", "Penalty In Progress"]

/-- Python status_long in blocked list (a missing status is never in it). -/
def statusBlocked (m : Fixture) : Bool :=
  match m.statusLong with
  | some st => blockedStatuses.contains st
  | none => false

/-- MatchPredict.save guard: raises only when the status is blocked AND the
row is new (not self.pk), i.e. never on an edit of a stored prediction. -/
def matchPredictSave (m : Fixture) (isNew : Bool) : Except String Unit :=
  if statusBlocked m && isNew then
    .error "Cannot create predictions for finished or live matches"
  else .ok ()

/-- MatchPredictionForm.clean: both-or-neither score check, auto-derivation
of the categorical result from supplied scores (silently overriding a
mismatched selection), then the status and kickoff-deadline checks when a
match is attached. Returns the cleaned (home, away, result) triple. -/
def predictionFormClean (ph pa : Option Nat) (res : Option Char)
    (mf : Option Fixture) (now : Int) :
    Except String (Option Nat × Option Nat × Option Char) :=
  if ph.isSome != pa.isSome then
    .error "Please provide both home and away scores, or leave both blank."
  else
    let res2 :=
      match ph, pa with
      | some h, some a =>
          let auto := if h > a then 'H' else if a > h then 'A' else 'D'
          if res == some auto then res else some auto
      | _, _ => res
    match mf with
    | some m =>
        if statusBlocked m then
          .error "Cannot make predictions for finished or live matches."
        else if m.date ≤ now then
          .error "Prediction deadline has passed for this match."
        else .ok (ph, pa, res2)
    | none => .ok (ph, pa, res2)

/-- BulkPredictionForm.clean for one match entry: skip when nothing was
entered, then the status and deadline checks, the result-required check, and
the score-consistency overrides. Returns none when the entry was skipped. -/
def bulkCleanEntry (res : Option Char) (hs as2 : Option Nat) (m : Fixture)
    (now : Int) :
    Except String (Option (Option Char × Option Nat × Option Nat)) :=
  if res = none ∧ hs = none ∧ as2 = none then .ok none
  else if statusBlocked m then
    .error "Cannot make predictions - match is live or finished."
  else if m.date ≤ now then
    .error "Prediction deadline has passed."
  else if res = none then .error "Please select a result."
  else
    let res2 :=
      match hs, as2 with
      | some h, some a =>
          if h > a ∧ res ≠ some 'H' then some 'H'
          else if a > h ∧ res ≠ some 'A' then some 'A'
          else if h = a ∧ res ≠ some 'D' then some 'D'
          else res
      | _, _ => res
    .ok (some (res2, hs, as2))

/-- A fixture standing at halftime whose kickoff field lies in the future. -/
def c3Fixture : Fixture :=
  { statusLong := some "Halftime", date := 100, league := 1
    homeGoals := none, awayGoals := none }

/-- A scheduled fixture with a future kickoff. -/
def c8Fixture : Fixture :=
  { statusLong := some "Not Started", date := 100, league := 1
    homeGoals := none, awayGoals := none }

/-- A finished fixture whose actual goals were never recorded. -/
def c1Fixture : Fixture :=
  { statusLong := some "Match Finished", date := 0, league := 1
    homeGoals := none, awayGoals := none }

/-- A prediction with no predicted scores and a stale stored points value. -/
def c1Predict : MatchPredict :=
  { user := 1, fixture := c1Fixture, predictedResult := 'H'
    predictedHomeScore := none, predictedAwayScore := none, pointsEarned := 3 }

/-- UserProfile.update_stats: filters the predictions of the user whose
match status_long equals the literal finished (sic — not Match Finished),
then counts them, counts the truthy is_correct ones, and sums the stored
points_earned values. Returns (total, correct, points). -/
def profileUpdateStats (db : List MatchPredict) (u : Nat) : Nat × Nat × Nat :=
  let preds := db.filter
    (fun p => p.user == u && p.fixture.statusLong == some "finished")
  (preds.length,
   preds.countP (fun p => isCorrectTruthy p),
   (preds.map (fun p => p.pointsEarned)).sum)

/-- A finished fixture with a recorded 2-1 score. -/
def c4Fixture : Fixture :=
  { statusLong := some "Match Finished", date := 0, league := 1
    homeGoals := some 2, awayGoals := some 1 }

/-- A correct, already-scored prediction of user 1 on the finished match. -/
def c4Predict : MatchPredict :=
  { user := 1, fixture := c4Fixture, predictedResult := 'H'
    predictedHomeScore := some 2, predictedAwayScore := some 1
    pointsEarned := 5 }

/-- The filter GroupMembership.update_stats applies: the member's own
predictions, on matches of the group leagues, with Match Finished status. -/
def groupPredScope (u : Nat) (gls : List Nat) (p : MatchPredict) : Bool :=
  p.user == u && gls.contains p.fixture.league
    && p.fixture.statusLong == some "Match Finished"

/-- One iteration of the exact/points loop of GroupMembership.update_stats:
an exact score adds (1 exact, 5 points), else a truthy is_correct adds 2
points, else nothing. -/
def groupUpdateStep (acc : Nat × Nat) (p : MatchPredict) : Nat × Nat :=
  if p.predictedHomeScore == p.fixture.homeGoals
      && p.predictedAwayScore == p.fixture.awayGoals then
    (acc.1 + 1, acc.2 + 5)
  else if isCorrectTruthy p then (acc.1, acc.2 + 2)
  else acc

/-- GroupMembership.update_stats: restrict to the scope filter, count the
predictions and the truthy-correct ones, then run the exact/points loop.
Returns (total, correct, exact, points). -/
def groupMembershipUpdateStats (db : List MatchPredict) (u : Nat)
    (gls : List Nat) : Nat × Nat × Nat × Nat :=
  let preds := db.filter (groupPredScope u gls)
  let ep := preds.foldl groupUpdateStep (0, 0)
  (preds.length, preds.countP (fun p => isCorrectTruthy p), ep.1, ep.2)

/-- The pure value MatchPredict.calculate_points returns. -/
def calcPointsValue (p : MatchPredict) : Nat :=
  (calculatePoints p).1

/-- Embedding of a UserGroup with its membership rows. -/
structure Group where
  members : List Nat
  maxMembers : Nat
deriving DecidableEq

/-- UserGroup.can_join: full group first, then already-a-member. -/
def canJoinGroup (g : Group) (u : Nat) : Bool × String :=
  if g.members.length ≥ g.maxMembers then (false, "Group is full")
  else if g.members.contains u then (false, "Already a member")
  else (true, "Can join")

/-- Embedding of a GroupInvitation row. Times are counted in days. -/
structure GroupInvitation where
  invitee : Nat
  status : String
  createdAt : Int
  respondedAt : Option Int
deriving DecidableEq

/-- GroupInvitation.is_expired: strictly more than 30 days after creation. -/
def invitationIsExpired (inv : GroupInvitation) (now : Int) : Bool :=
  now > inv.createdAt + 30

/-- The observable outcome of GroupInvitation.accept: the returned pair and
the post-call group and invitation states. -/
structure AcceptResult where
  success : Bool
  message : String
  group : Group
  invitation : GroupInvitation
deriving DecidableEq

/-- GroupInvitation.accept: only a pending, unexpired invitation whose group
admits the invitee creates a membership and flips the status to accepted;
every other path returns failure and leaves all state untouched. -/
def acceptInvitation (inv : GroupInvitation) (g : Group) (now : Int) :
    AcceptResult :=
  if inv.status == "pending" && !(invitationIsExpired inv now) then
    let cj := canJoinGroup g inv.invitee
    if cj.1 then
      { success := true, message := "Invitation accepted"
        group := { g with members := g.members ++ [inv.invitee] }
        invitation := { inv with status := "accepted", respondedAt := some now } }
    else
      { success := false, message := cj.2, group := g, invitation := inv }
  else
    { success := false, message := "Invitation cannot be accepted"
      group := g, invitation := inv }

/-- A pending invitation created at day 0. -/
def c9Invitation : GroupInvitation :=
  { invitee := 7, status := "pending", createdAt := 0, respondedAt := none }

/-- An empty group with spare capacity. -/
def c9Group : Group :=
  { members := [], maxMembers := 50 }

/-- Python str.split on a single separator character, keeping empty parts. -/
def splitOnChar (c : Char) : List Char → List (List Char)
  | [] => [[]]
  | x :: xs =>
      match splitOnChar c xs with
      | [] => [[]]
      | t :: ts => if x == c then [] :: t :: ts else (x :: t) :: ts

/-- Python str.strip: drop whitespace from both ends. -/
def pyStrip (l : List Char) : List Char :=
  ((l.dropWhile Char.isWhitespace).reverse.dropWhile Char.isWhitespace).reverse

/-- Python str.isdigit: nonempty and all digits. -/
def pyIsDigit (l : List Char) : Bool :=
  !l.isEmpty && l.all Char.isDigit

/-- Python int on a digit string. -/
def digitsToNat (l : List Char) : Nat :=
  l.foldl (fun n c => 10 * n + (c.toNat - 48)) 0

/-- The decimal digit character for a value below ten. -/
def digitChar (n : Nat) : Char :=
  Char.ofNat (48 + n)

/-- Fuelled decimal printer (the fuel n always suffices for the number n). -/
def natDigitsAux : Nat → Nat → List Char
  | n, 0 => [digitChar n]
  | n, fuel + 1 =>
      if n < 10 then [digitChar n]
      else natDigitsAux (n / 10) fuel ++ [digitChar (n % 10)]

/-- Python str of a natural number. -/
def natToChars (n : Nat) : List Char :=
  natDigitsAux n n

/-- Python range(a, b + 1) as a list. -/
def rangeIncl (a b : Nat) : List Nat :=
  List.range' a (b + 1 - a)

/-- One token of CreateGroupForm round parsing: a token holding a dash whose
dash-free residue is all digits goes down the range path — there the token
split on dashes must yield exactly a nonempty pair (anything else raises a
ValueError, the none outcome) and expands to the inclusive range; every
other token is appended verbatim. -/
def expandTok (t : List Char) : Option (List (List Char)) :=
  if t.contains '-' && pyIsDigit (t.filter (fun c => !(c == '-'))) then
    match splitOnChar '-' t with
    | [a, b] =>
        if !a.isEmpty && !b.isEmpty then
          some ((rangeIncl (digitsToNat a) (digitsToNat b)).map natToChars)
        else none
    | _ => none
  else some [t]

/-- Expansion over the comma-split token list; any raising token aborts. -/
def resolveRoundTokens : List (List Char) → Option (List (List Char))
  | [] => some []
  | t :: ts =>
      match expandTok (pyStrip t) with
      | none => none
      | some e =>
          match resolveRoundTokens ts with
          | none => none
          | some r => some (e ++ r)

/-- CreateGroupForm round_numbers parsing: split on commas, strip each
token, expand each token. -/
def parseRounds (s : List Char) : Option (List (List Char)) :=
  resolveRoundTokens (splitOnChar ',' s)

/-- The round_numbers value of the spec example scenario. -/
def c6Input : List Char := ['1', ',', '3', '-', '5']

/-- A token with a dash, all-digit residue, and an empty left side. -/
def c6Bad : List Char := ['-', '5']

/-- Modelled from the spec: the standings view (league_detail in views.py)
reads a MatchResult schema and a team-league association that are absent
from the models under src; the record fields are taken from the fields the
view reads (home/away team, league, season, status literal, nullable
scores), per the spec data model for Match. -/
structure MatchResult where
  homeTeam : Nat
  awayTeam : Nat
  league : Nat
  season : Nat
  status : String
  homeScore : Option Nat
  awayScore : Option Nat
deriving DecidableEq

/-- SQL greater-than on nullable scores: false when either side is NULL. -/
def optGt (x y : Option Nat) : Bool :=
  match x, y with
  | some a, some b => decide (a > b)
  | _, _ => false

/-- SQL equality on nullable scores: false when either side is NULL. -/
def optEq (x y : Option Nat) : Bool :=
  match x, y with
  | some a, some b => decide (a = b)
  | _, _ => false

/-- The league, season and finished-status filter of the standings query. -/
def isLeagueSeasonFinished (lg sn : Nat) (m : MatchResult) : Bool :=
  m.league == lg && m.season == sn && m.status == "finished"

/-- One standings table row. -/
structure StandingsRow where
  team : Nat
  played : Nat
  wins : Nat
  draws : Nat
  losses : Nat
  goalsFor : Nat
  goalsAgainst : Nat
  goalDiff : Int
  points : Nat
deriving DecidableEq

/-- The per-team standings computation of league_detail: home and away
finished matches of the team in the league and season, win/draw counts by
score comparison per side, goals summed skipping NULL scores, and
points = wins*3 + draws. -/
def standingsRow (ms : List MatchResult) (lg sn t : Nat) : StandingsRow :=
  let hm := ms.filter (fun m => m.homeTeam == t && isLeagueSeasonFinished lg sn m)
  let am := ms.filter (fun m => m.awayTeam == t && isLeagueSeasonFinished lg sn m)
  let played := hm.length + am.length
  let wins := hm.countP (fun m => optGt m.homeScore m.awayScore)
    + am.countP (fun m => optGt m.awayScore m.homeScore)
  let draws := hm.countP (fun m => optEq m.homeScore m.awayScore)
    + am.countP (fun m => optEq m.awayScore m.homeScore)
  let losses := played - wins - draws
  let gf := (hm.map (fun m => m.homeScore.getD 0)).sum
    + (am.map (fun m => m.awayScore.getD 0)).sum
  let ga := (hm.map (fun m => m.awayScore.getD 0)).sum
    + (am.map (fun m => m.homeScore.getD 0)).sum
  { team := t, played := played, wins := wins, draws := draws
    losses := losses, goalsFor := gf, goalsAgainst := ga
    goalDiff := (gf : Int) - (ga : Int), points := wins * 3 + draws }

/-- The ascending comparison on the Python sort key
(-points, -goal_difference, -goals_for). -/
def rowKeyLE (x y : StandingsRow) : Bool :=
  if x.points ≠ y.points then decide (y.points < x.points)
  else if x.goalDiff ≠ y.goalDiff then decide (y.goalDiff < x.goalDiff)
  else decide (y.goalsFor ≤ x.goalsFor)

/-- Sorted insertion of a row. -/
def insertRow (r : StandingsRow) : List StandingsRow → List StandingsRow
  | [] => [r]
  | x :: xs => if rowKeyLE x r then x :: insertRow r xs else r :: x :: xs

/-- The standings sort: by points, then goal difference, then goals for,
all descending. -/
def sortRows (l : List StandingsRow) : List StandingsRow :=
  l.foldr insertRow []

/-- league_detail standings: one row per league team, sorted. -/
def computeStandings (ms : List MatchResult) (lg sn : Nat)
    (teams : List Nat) : List StandingsRow :=
  sortRows (teams.map (standingsRow ms lg sn))

/-- A finished 3-1 match of the example league. -/
def c5Match : MatchResult :=
  { homeTeam := 1, awayTeam := 2, league := 1, season := 1
    status := "finished", homeScore := some 3, awayScore := some 1 }

end FootballApp

namespace FootballApp

/-- Claim C1, counterexample. The claim requires the scorer to return 0 and
leave points_earned unchanged whenever an actual score is absent, even for a
finished match. On a finished fixture with both goals missing and a blank
prediction, calculate_points instead returns 5 and persists points_earned = 5
(the stored value was 3). -/
theorem c1_counterexample :
    fixtureIsFinished c1Fixture = true ∧
    c1Fixture.homeGoals = none ∧
    c1Predict.pointsEarned = 3 ∧
    (calculatePoints c1Predict).1 = 5 ∧
    (calculatePoints c1Predict).2.pointsEarned = 5 := by
  decide

/-- Claim C1, amended: for a finished match with both actual scores present,
the scorer returns 5 on an exact score match, 2 when the score is not exact
but the predicted result equals the derived result, 0 otherwise, persisting
points_earned in each case; when the match is not finished it returns 0 and
leaves the stored row unchanged. (The guard checks only the finished status:
score presence is not required, as the counterexample shows.) -/
theorem c1_theorem (p : MatchPredict) :
    (fixtureIsFinished p.fixture = false → calculatePoints p = (0, p)) ∧
    (∀ hg ag : Nat, fixtureIsFinished p.fixture = true →
      p.fixture.homeGoals = some hg → p.fixture.awayGoals = some ag →
      ((p.predictedHomeScore = some hg ∧ p.predictedAwayScore = some ag →
          calculatePoints p = (5, { p with pointsEarned := 5 })) ∧
       (¬(p.predictedHomeScore = some hg ∧ p.predictedAwayScore = some ag) →
          fixtureResult p.fixture = some p.predictedResult →
          calculatePoints p = (2, { p with pointsEarned := 2 })) ∧
       (¬(p.predictedHomeScore = some hg ∧ p.predictedAwayScore = some ag) →
          fixtureResult p.fixture ≠ some p.predictedResult →
          calculatePoints p = (0, { p with pointsEarned := 0 })))) := by
  constructor
  · intro hnf
    simp [calculatePoints, hnf]
  · intro hg ag hfin hh ha
    refine ⟨?_, ?_, ?_⟩
    · rintro ⟨hph, hpa⟩
      simp [calculatePoints, hfin, hh, ha, hph, hpa]
    · intro hne hres
      have hx : (p.predictedHomeScore == p.fixture.homeGoals
          && p.predictedAwayScore == p.fixture.awayGoals) = false := by
        rw [hh, ha]
        by_cases h1 : p.predictedHomeScore = some hg
        · by_cases h2 : p.predictedAwayScore = some ag
          · exact absurd ⟨h1, h2⟩ hne
          · simp [h2]
        · simp [h1]
      have hc : isCorrectTruthy p = true := by
        simp [isCorrectTruthy, isCorrect, hfin, hres]
      simp [calculatePoints, hfin, hx, hc]
    · intro hne hres
      have hx : (p.predictedHomeScore == p.fixture.homeGoals
          && p.predictedAwayScore == p.fixture.awayGoals) = false := by
        rw [hh, ha]
        by_cases h1 : p.predictedHomeScore = some hg
        · by_cases h2 : p.predictedAwayScore = some ag
          · exact absurd ⟨h1, h2⟩ hne
          · simp [h2]
        · simp [h1]
      have hc : isCorrectTruthy p = false := by
        simp [isCorrectTruthy, isCorrect, hfin]
        intro hcontra
        exact absurd hcontra hres
      simp [calculatePoints, hfin, hx, hc]

/-- Every row of the cleared table has its current flag unset. -/
theorem mem_clearCurrentAll {db : List Season} {t : Season}
    (h : t ∈ clearCurrentAll db) : t.isCurrent = false := by
  rcases List.mem_map.1 h with ⟨u, _, rfl⟩
  by_cases hc : u.isCurrent <;> simp [hc]

/-- Membership in an upsert result comes from the new row or the old table. -/
theorem mem_upsertSeason {db : List Season} {s t : Season}
    (h : t ∈ upsertSeason db s) : t = s ∨ t ∈ db := by
  unfold upsertSeason at h
  by_cases hany : db.any (fun u => u.id == s.id)
  · rw [if_pos hany] at h
    rcases List.mem_map.1 h with ⟨u, hu, heq⟩
    by_cases hid : u.id == s.id
    · rw [if_pos hid] at heq
      exact Or.inl heq.symm
    · rw [if_neg hid] at heq
      exact Or.inr (heq ▸ hu)
  · rw [if_neg hany] at h
    rcases List.mem_append.1 h with hl | hr
    · exact Or.inr hl
    · exact Or.inl (List.mem_singleton.1 hr)

/-- Saving a current season clears the flag of every other stored season. -/
theorem seasonSave_clears {db : List Season} {s : Season}
    (hs : s.isCurrent = true) :
    ∀ t ∈ seasonSave db s, t.id ≠ s.id → t.isCurrent = false := by
  intro t ht hne
  unfold seasonSave at ht
  rw [hs, if_pos rfl] at ht
  rcases mem_upsertSeason ht with rfl | hmem
  · exact absurd rfl hne
  · exact mem_clearCurrentAll hmem

/-- Claim C2, counterexample. The claim says a current season of a different
scope (here league 2) keeps its flag when a season of league 1 is set
current; the save in fact clears the flag of every current season. -/
theorem c2_counterexample :
    c2Other.league ≠ c2Saved.league ∧
    c2Other.isCurrent = true ∧
    seasonSave [c2Other] c2Saved =
      [{ c2Other with isCurrent := false }, c2Saved] := by
  decide

/-- Claim C2, amended: setting a season current clears the current flag of
every other season in the table regardless of scope — both through
Season.save and through the set_current_season command (after a successful
unique lookup), every stored season other than the one being set ends up
with is_current = false. -/
theorem c2_theorem (db : List Season) (s : Season) (hs : s.isCurrent = true) :
    (∀ t ∈ seasonSave db s, t.id ≠ s.id → t.isCurrent = false) ∧
    (∀ y1 y2 : Nat, ∀ s2 : Season,
      db.filter (fun u => u.startYear == y1 && u.endYear == some y2) = [s2] →
      ∀ t ∈ setCurrentSeasonCmd db y1 y2, t.id ≠ s2.id → t.isCurrent = false) := by
  constructor
  · exact seasonSave_clears hs
  · intro y1 y2 s2 hf t ht hne
    unfold setCurrentSeasonCmd at ht
    rw [hf] at ht
    exact seasonSave_clears rfl t ht hne

/-- Claim C2, witness: concrete instantiation showing the cleared row of the
foreign scope after the save. -/
theorem c2_witness :
    ({ c2Other with isCurrent := false } : Season).isCurrent = false :=
  (c2_theorem [c2Other] c2Saved (by decide)).1
    { c2Other with isCurrent := false } (by decide) (by decide)

/-- An empty queryset is the only one whose first element is none. -/
theorem firstByStartYearDesc_eq_none {l : List Season}
    (h : firstByStartYearDesc l = none) : l = [] := by
  cases l with
  | nil => rfl
  | cons a rest =>
      unfold firstByStartYearDesc at h
      cases hr : firstByStartYearDesc rest with
      | none => rw [hr] at h; exact absurd h (by simp)
      | some t =>
          rw [hr] at h
          by_cases ht : t.startYear > a.startYear <;> simp [ht] at h

/-- The first season under descending start-year order is a member with the
greatest start year. -/
theorem firstByStartYearDesc_spec {l : List Season} :
    ∀ {s : Season}, firstByStartYearDesc l = some s →
    s ∈ l ∧ ∀ t ∈ l, t.startYear ≤ s.startYear := by
  induction l with
  | nil => intro s h; exact absurd h (by simp [firstByStartYearDesc])
  | cons a rest ih =>
      intro s h
      unfold firstByStartYearDesc at h
      cases hr : firstByStartYearDesc rest with
      | none =>
          rw [hr] at h
          have ha : a = s := by simpa using h
          subst ha
          have hrest : rest = [] := firstByStartYearDesc_eq_none hr
          subst hrest
          exact ⟨List.mem_singleton.2 rfl, by simp⟩
      | some t =>
          rw [hr] at h
          simp only [] at h
          rcases ih hr with ⟨htm, hmax⟩
          by_cases hgt : t.startYear > a.startYear
          · rw [if_pos hgt] at h
            cases h
            refine ⟨List.mem_cons_of_mem _ htm, ?_⟩
            intro u hu
            rcases List.mem_cons.1 hu with rfl | hur
            · exact Nat.le_of_lt hgt
            · exact hmax u hur
          · rw [if_neg hgt] at h
            cases h
            refine ⟨List.mem_cons_self _ _, ?_⟩
            intro u hu
            rcases List.mem_cons.1 hu with rfl | hur
            · exact Nat.le_refl _
            · exact Nat.le_trans (hmax u hur) (Nat.le_of_not_lt hgt)

/-- A list of length at most one equals the singleton of any member. -/
theorem eq_singleton_of_length_le_one {l : List Season} {s : Season}
    (hlen : l.length ≤ 1) (hmem : s ∈ l) : l = [s] := by
  cases l with
  | nil => exact absurd hmem (by simp)
  | cons a rest =>
      cases rest with
      | nil =>
          rcases List.mem_singleton.1 hmem with rfl
          rfl
      | cons b r2 => simp at hlen

/-- Claim C7: under the single-current-season invariant maintained by the
save logic, get_current_season returns the season flagged current in the
requested scope when one exists; with none flagged it falls back to an
active season of the scope with the greatest start year, or none when the
scope has no active season. The scope is the given league, or every season
when no league is passed. -/
theorem c7_theorem (db : List Season) (lg : Option Nat)
    (hinv : (db.filter (fun s => s.isCurrent)).length ≤ 1) :
    (∀ s ∈ db, s.isCurrent = true → seasonInScope lg s = true →
      getCurrentSeason db lg = .ok (some s)) ∧
    ((∀ s ∈ db, s.isCurrent = true → seasonInScope lg s = false) →
      ((getCurrentSeason db lg = .ok none ∧
          ∀ s ∈ db, ¬(s.isActive = true ∧ seasonInScope lg s = true)) ∨
       (∃ s : Season, getCurrentSeason db lg = .ok (some s) ∧ s ∈ db ∧
          s.isActive = true ∧ seasonInScope lg s = true ∧
          ∀ t ∈ db, t.isActive = true → seasonInScope lg t = true →
            t.startYear ≤ s.startYear))) := by
  constructor
  · intro s hmem hcur hscope
    have hsf : s ∈ db.filter (fun x => x.isCurrent && seasonInScope lg x) := by
      rw [List.mem_filter]
      exact ⟨hmem, by rw [hcur, hscope]; rfl⟩
    have hle : (db.filter (fun x => x.isCurrent && seasonInScope lg x)).length
        ≤ (db.filter (fun x => x.isCurrent)).length := by
      rw [← List.countP_eq_length_filter, ← List.countP_eq_length_filter]
      exact List.countP_mono_left (fun a _ h => by
        rw [Bool.and_eq_true] at h
        exact h.1)
    have heq : db.filter (fun x => x.isCurrent && seasonInScope lg x) = [s] :=
      eq_singleton_of_length_le_one (Nat.le_trans hle hinv) hsf
    unfold getCurrentSeason
    rw [heq]
  · intro hnone
    have hempty : db.filter (fun x => x.isCurrent && seasonInScope lg x) = [] := by
      rw [List.filter_eq_nil_iff]
      intro a ha hcontra
      rw [Bool.and_eq_true] at hcontra
      rcases hcontra with ⟨h1, h2⟩
      rw [hnone a ha h1] at h2
      exact absurd h2 (by simp)
    cases hfb : firstByStartYearDesc
        (db.filter (fun s => s.isActive && seasonInScope lg s)) with
    | none =>
        left
        constructor
        · unfold getCurrentSeason
          rw [hempty, hfb]
        · intro s hmem hcontra
          have h1 : db.filter (fun s => s.isActive && seasonInScope lg s) = [] :=
            firstByStartYearDesc_eq_none hfb
          have : s ∈ db.filter (fun s => s.isActive && seasonInScope lg s) := by
            rw [List.mem_filter]
            exact ⟨hmem, by rw [hcontra.1, hcontra.2]; rfl⟩
          rw [h1] at this
          exact absurd this (by simp)
    | some s =>
        right
        rcases firstByStartYearDesc_spec hfb with ⟨hsmem, hmax⟩
        rcases List.mem_filter.1 hsmem with ⟨hsdb, hsp⟩
        rw [Bool.and_eq_true] at hsp
        rcases hsp with ⟨hac, hsc⟩
        refine ⟨s, ?_, hsdb, hac, hsc, ?_⟩
        · unfold getCurrentSeason
          rw [hempty, hfb]
        · intro t htdb hta hts
          refine hmax t ?_
          rw [List.mem_filter]
          exact ⟨htdb, by rw [hta, hts]; rfl⟩

/-- Claim C7, witness: a single current season of league 1 is returned for
the league-1 query. -/
theorem c7_witness :
    getCurrentSeason
      [{ id := 1, league := some 1, startYear := 2024, endYear := none
         isCurrent := true, isActive := true }] (some 1)
      = .ok (some { id := 1, league := some 1, startYear := 2024, endYear := none
                    isCurrent := true, isActive := true }) :=
  (c7_theorem _ _ (by decide)).1 _ (by decide) (by decide) (by decide)

/-- The single-form override always stores the derived result. -/
theorem overrideEq (res : Option Char) (c : Char) :
    (if res == some c then res else some c) = some c := by
  by_cases h : res == some c
  · rw [if_pos h]; exact eq_of_beq h
  · rw [if_neg h]

/-- The bulk-form override chain always stores the derived result. -/
theorem bulkOverrideEq (r : Char) (h a : Nat) :
    (if a < h ∧ ¬ r = 'H' then (some 'H' : Option Char)
     else if h < a ∧ ¬ r = 'A' then some 'A'
     else if h = a ∧ ¬ r = 'D' then some 'D'
     else some r)
    = some (if a < h then 'H' else if h < a then 'A' else 'D') := by
  by_cases h1 : h > a
  · have hna : ¬ a > h := by omega
    have hne : ¬ h = a := by omega
    by_cases hr : r = 'H'
    · subst hr; simp [h1, hna, hne]
    · simp [h1, hna, hne, hr]
  · by_cases h2 : a > h
    · have hne : ¬ h = a := by omega
      by_cases hr : r = 'A'
      · subst hr; simp [h1, h2, hne]
      · simp [h1, h2, hne, hr]
    · have h3 : h = a := by omega
      by_cases hr : r = 'D'
      · subst hr; simp [h1, h2, h3]
      · simp [h1, h2, h3, hr]

/-- Claim C3, counterexample. Halftime is an in-play status variant, yet a
new prediction for a halftime fixture whose kickoff field lies in the future
is accepted by both the model-level guard and the form validation, where the
claim requires rejection for every in-play variant. -/
theorem c3_counterexample :
    isInPlayVariantLong "Halftime" = true ∧
    matchPredictSave c3Fixture true = .ok () ∧
    predictionFormClean (some 1) (some 0) (some 'H') (some c3Fixture) 0
      = .ok (some 1, some 0, some 'H') :=
  ⟨by decide, by rfl, by rfl⟩

/-- Claim C3, amended: a prediction submission is rejected by the forms when
the match status_long is one of the six guarded variants (Match Finished, In
Progress, First Half Kick Off, Second Half 2nd Half Started, Extra Time,
Penalty In Progress) or when the kickoff timestamp is not in the future; the
model-level guard raises only for new rows with a guarded status and never
on edits; the in-play variants Halftime, Break Time, Match Suspended and
Match Interrupted are not blocked by the status check. -/
theorem c3_theorem :
    (∀ m : Fixture, statusBlocked m = true →
      matchPredictSave m true
        = .error "Cannot create predictions for finished or live matches") ∧
    (∀ m : Fixture, matchPredictSave m false = .ok ()) ∧
    (∀ (ph pa : Option Nat) (res : Option Char) (m : Fixture) (now : Int),
      statusBlocked m = true ∨ m.date ≤ now →
      ∀ out, predictionFormClean ph pa res (some m) now ≠ .ok out) ∧
    (∀ (res : Option Char) (hs as2 : Option Nat) (m : Fixture) (now : Int),
      ¬(res = none ∧ hs = none ∧ as2 = none) →
      statusBlocked m = true ∨ m.date ≤ now →
      ∀ out, bulkCleanEntry res hs as2 m now ≠ .ok out) ∧
    (∀ st ∈ ["Halftime", "Break Time", "Match Suspended", "Match Interrupted"],
      ∀ m : Fixture, m.statusLong = some st → statusBlocked m = false) := by
  refine ⟨?_, ?_, ?_, ?_, ?_⟩
  · intro m h
    simp [matchPredictSave, h]
  · intro m
    simp [matchPredictSave]
  · intro ph pa res m now hbad out
    unfold predictionFormClean
    by_cases hx : ph.isSome != pa.isSome
    · simp [hx]
    · rcases hbad with hsb | hdate
      · simp [hx, hsb]
      · by_cases hsb : statusBlocked m
        · simp [hx, hsb]
        · simp [hx, hsb, hdate]
  · intro res hs as2 m now hskip hbad out
    unfold bulkCleanEntry
    rw [if_neg hskip]
    rcases hbad with hsb | hdate
    · simp [hsb]
    · by_cases hsb : statusBlocked m
      · simp [hsb]
      · simp [hsb, hdate]
  · intro st hst m hm
    fin_cases hst <;> simp [statusBlocked, hm, blockedStatuses]

/-- Claim C3, witness: a new prediction on a finished fixture is rejected by
the model guard. -/
theorem c3_witness :
    matchPredictSave
      { statusLong := some "Match Finished", date := 0, league := 1
        homeGoals := none, awayGoals := none } true
      = .error "Cannot create predictions for finished or live matches" :=
  c3_theorem.1 _ (by decide)

/-- Claim C8: whenever both predicted scores are supplied (and the match, if
attached, is still open so that no unrelated check fires), validation
succeeds with no mismatch error and the cleaned categorical result is the
one derived from the scores, whatever result was manually selected — in the
single-prediction form and in the bulk form alike. -/
theorem c8_theorem :
    (∀ (h a : Nat) (res : Option Char) (now : Int),
      predictionFormClean (some h) (some a) res none now
        = .ok (some h, some a,
            some (if h > a then 'H' else if a > h then 'A' else 'D'))) ∧
    (∀ (h a : Nat) (res : Option Char) (m : Fixture) (now : Int),
      statusBlocked m = false → now < m.date →
      predictionFormClean (some h) (some a) res (some m) now
        = .ok (some h, some a,
            some (if h > a then 'H' else if a > h then 'A' else 'D'))) ∧
    (∀ (h a : Nat) (r : Char) (m : Fixture) (now : Int),
      statusBlocked m = false → now < m.date →
      bulkCleanEntry (some r) (some h) (some a) m now
        = .ok (some
            (some (if h > a then 'H' else if a > h then 'A' else 'D'),
             some h, some a))) := by
  refine ⟨?_, ?_, ?_⟩
  · intro h a res now
    simp [predictionFormClean, overrideEq]
  · intro h a res m now hsb hlt
    have hd : ¬ (m.date ≤ now) := not_le.mpr hlt
    simp [predictionFormClean, overrideEq, hsb, hd]
  · intro h a r m now hsb hlt
    have hd : ¬ (m.date ≤ now) := not_le.mpr hlt
    simp only [bulkCleanEntry]
    rw [if_neg (by simp)]
    simp [hsb, hd]
    exact bulkOverrideEq r h a

/-- Claim C8, witness: a 2-1 score with a manually selected Draw is cleaned
to a Home result on an open match. -/
theorem c8_witness :
    predictionFormClean (some 2) (some 1) (some 'D') (some c8Fixture) 0
      = .ok (some 2, some 1, some 'H') :=
  c8_theorem.2.1 2 1 (some 'D') c8Fixture 0 (by decide) (by decide)

/-- Claim C4: the global profile aggregator filters on the status literal
finished, which no finished fixture carries (finished fixtures store Match
Finished, the literal the model property is_finished and the membership
aggregator both use), so a user holding one finished, correct, 5-point
prediction gets totals of zero. -/
theorem c4_theorem :
    profileUpdateStats [c4Predict] 1 = (0, 0, 0) ∧
    fixtureIsFinished c4Predict.fixture = true ∧
    isCorrectTruthy c4Predict = true ∧
    c4Predict.pointsEarned = 5 := by
  decide

/-- On a finished fixture the loop step adds exactly the calculate_points
value to the running points accumulator. -/
theorem groupUpdateStep_points (p : MatchPredict) (acc : Nat × Nat)
    (hf : fixtureIsFinished p.fixture = true) :
    (groupUpdateStep acc p).2 = acc.2 + calcPointsValue p := by
  unfold groupUpdateStep calcPointsValue calculatePoints
  rw [hf]
  by_cases hex : (p.predictedHomeScore == p.fixture.homeGoals
      && p.predictedAwayScore == p.fixture.awayGoals) = true
  · simp [hex]
  · by_cases hc : isCorrectTruthy p = true
    · simp [hex, hc]
    · simp [hex, hc]

/-- Folding the loop over finished predictions accumulates the sum of the
calculate_points values. -/
theorem foldl_groupUpdateStep (l : List MatchPredict)
    (hf : ∀ p ∈ l, fixtureIsFinished p.fixture = true) :
    ∀ acc : Nat × Nat,
      (l.foldl groupUpdateStep acc).2 = acc.2 + (l.map calcPointsValue).sum := by
  induction l with
  | nil => intro acc; simp
  | cons p rest ih =>
      intro acc
      simp only [List.foldl_cons, List.map_cons, List.sum_cons]
      rw [ih (fun q hq => hf q (List.mem_cons_of_mem _ hq)) (groupUpdateStep acc p)]
      rw [groupUpdateStep_points p acc (hf p (List.mem_cons_self _ _))]
      omega

/-- Overwriting points_earned commutes with the membership scope filter. -/
theorem filter_scope_map_points (db : List MatchPredict) (u : Nat)
    (gls : List Nat) (f : MatchPredict → Nat) :
    (db.map (fun p => { p with pointsEarned := f p })).filter
        (groupPredScope u gls)
      = (db.filter (groupPredScope u gls)).map
          (fun p => { p with pointsEarned := f p }) := by
  induction db with
  | nil => rfl
  | cons p rest ih =>
      simp only [List.map_cons, List.filter_cons]
      have hpred : groupPredScope u gls { p with pointsEarned := f p }
          = groupPredScope u gls p := rfl
      rw [hpred]
      by_cases hp : groupPredScope u gls p = true
      · rw [hp]
        simp [ih]
      · rw [Bool.not_eq_true] at hp
        rw [hp]
        simp [ih]

/-- Every prediction selected by the membership scope is finished. -/
theorem scope_finished (db : List MatchPredict) (u : Nat) (gls : List Nat) :
    ∀ p ∈ db.filter (groupPredScope u gls),
      fixtureIsFinished p.fixture = true := by
  intro p hp
  have := (List.mem_filter.1 hp).2
  unfold groupPredScope at this
  rw [Bool.and_eq_true] at this
  exact this.2

/-- Claim C10: the membership aggregator derives total_points by re-scoring
each finished in-scope prediction with the 5/2/0 policy — its result equals
the sum of the calculate_points return values over those predictions — and
it never reads the stored points_earned column: overwriting that column
arbitrarily leaves every recomputed statistic unchanged. -/
theorem c10_theorem (db : List MatchPredict) (u : Nat) (gls : List Nat) :
    (groupMembershipUpdateStats db u gls).2.2.2
      = ((db.filter (groupPredScope u gls)).map calcPointsValue).sum ∧
    (∀ f : MatchPredict → Nat,
      groupMembershipUpdateStats
          (db.map (fun p => { p with pointsEarned := f p })) u gls
        = groupMembershipUpdateStats db u gls) := by
  constructor
  · unfold groupMembershipUpdateStats
    simp only []
    rw [foldl_groupUpdateStep _ (scope_finished db u gls) (0, 0)]
    omega
  · intro f
    unfold groupMembershipUpdateStats
    rw [filter_scope_map_points]
    simp only [List.length_map, List.countP_map, List.foldl_map]
    rfl

/-- Claim C9: a pending invitation created more than 30 days ago is expired,
and accepting it fails with a message, creates no membership (the group is
unchanged) and leaves the stored status pending. -/
theorem c9_theorem (inv : GroupInvitation) (g : Group) (now : Int)
    (hp : inv.status = "pending") (hold : inv.createdAt + 30 < now) :
    invitationIsExpired inv now = true ∧
    (acceptInvitation inv g now).success = false ∧
    (acceptInvitation inv g now).message = "Invitation cannot be accepted" ∧
    (acceptInvitation inv g now).group = g ∧
    (acceptInvitation inv g now).invitation.status = "pending" := by
  have hexp : invitationIsExpired inv now = true := by
    unfold invitationIsExpired
    exact decide_eq_true hold
  have hacc : acceptInvitation inv g now
      = { success := false, message := "Invitation cannot be accepted"
          group := g, invitation := inv } := by
    unfold acceptInvitation
    rw [hexp]
    simp
  refine ⟨hexp, ?_, ?_, ?_, ?_⟩ <;> rw [hacc]
  exact hp

/-- Claim C9, witness: an invitation created at day 0 and left pending is
rejected at day 31 with no membership created. -/
theorem c9_witness :
    invitationIsExpired c9Invitation 31 = true ∧
    (acceptInvitation c9Invitation c9Group 31).success = false ∧
    (acceptInvitation c9Invitation c9Group 31).group = c9Group ∧
    (acceptInvitation c9Invitation c9Group 31).invitation.status = "pending" := by
  have h := c9_theorem c9Invitation c9Group 31 (by decide) (by decide)
  exact ⟨h.1, h.2.1, h.2.2.2.1, h.2.2.2.2⟩

/-- A hypothesis refuting a Bool gives the false equation. -/
theorem bool_not_true {b : Bool} (h : ¬ b = true) : b = false := by
  cases b
  · rfl
  · exact absurd rfl h

/-- A false contains test means the element is absent. -/
theorem notMem_of_contains_false {l : List Char} {c : Char}
    (h : l.contains c = false) : c ∉ l := by
  intro hm
  have h2 : l.elem c = true := List.elem_eq_true_of_mem hm
  have h3 : l.contains c = true := h2
  rw [h3] at h
  exact absurd h (by simp)

/-- A member makes the contains test true. -/
theorem contains_true_of_mem {l : List Char} {c : Char} (hm : c ∈ l) :
    l.contains c = true :=
  List.elem_eq_true_of_mem hm

/-- The one-step unfolding of splitOnChar on a cons cell. -/
theorem splitOnChar_cons (c x : Char) (xs : List Char) :
    splitOnChar c (x :: xs)
      = match splitOnChar c xs with
        | [] => [[]]
        | t :: ts => if x == c then [] :: t :: ts else (x :: t) :: ts := rfl

/-- A dash-free digit string: its characters are never the dash. -/
theorem digits_no_dash {a : List Char} (h : pyIsDigit a = true) :
    a.contains '-' = false := by
  unfold pyIsDigit at h
  rw [Bool.and_eq_true, List.all_eq_true] at h
  by_cases hc : a.contains '-' = true
  · have hm : '-' ∈ a := List.mem_of_elem_eq_true hc
    have := h.2 '-' hm
    exact absurd this (by decide)
  · exact bool_not_true hc

/-- Splitting never produces the empty list of parts. -/
theorem splitOnChar_ne_nil (c : Char) (l : List Char) :
    splitOnChar c l ≠ [] := by
  cases l with
  | nil => simp [splitOnChar]
  | cons x xs =>
      rw [splitOnChar_cons]
      cases h : splitOnChar c xs with
      | nil => simp
      | cons t ts => by_cases hx : x == c <;> simp [hx]

/-- A part holding no separator splits to itself alone. -/
theorem splitOnChar_no_sep {c : Char} {l : List Char}
    (h : l.contains c = false) : splitOnChar c l = [l] := by
  induction l with
  | nil => rfl
  | cons x xs ih =>
      have hnm : c ∉ x :: xs := notMem_of_contains_false h
      have hx : (x == c) = false := by
        by_cases hxc : (x == c) = true
        · have hm : c ∈ x :: xs := by
            rw [← eq_of_beq hxc]
            exact List.mem_cons_self x xs
          exact absurd hm hnm
        · exact bool_not_true hxc
      have hxs : xs.contains c = false := by
        by_cases hm : xs.contains c = true
        · exact absurd
            (List.mem_cons_of_mem _ (List.mem_of_elem_eq_true hm)) hnm
        · exact bool_not_true hm
      rw [splitOnChar_cons, ih hxs]
      simp [hx]

/-- Splitting around one separator with a separator-free head. -/
theorem splitOnChar_mid {c : Char} {a : List Char} (b : List Char)
    (h : a.contains c = false) :
    splitOnChar c (a ++ c :: b) = a :: splitOnChar c b := by
  induction a with
  | nil =>
      show splitOnChar c (c :: b) = [] :: splitOnChar c b
      rw [splitOnChar_cons]
      cases hb : splitOnChar c b with
      | nil => exact absurd hb (splitOnChar_ne_nil c b)
      | cons t ts => simp
  | cons x xs ih =>
      have hnm : c ∉ x :: xs := notMem_of_contains_false h
      have hx : (x == c) = false := by
        by_cases hxc : (x == c) = true
        · have hm : c ∈ x :: xs := by
            rw [← eq_of_beq hxc]
            exact List.mem_cons_self x xs
          exact absurd hm hnm
        · exact bool_not_true hxc
      have hxs : xs.contains c = false := by
        by_cases hm : xs.contains c = true
        · exact absurd
            (List.mem_cons_of_mem _ (List.mem_of_elem_eq_true hm)) hnm
        · exact bool_not_true hm
      show splitOnChar c (x :: (xs ++ c :: b)) = (x :: xs) :: splitOnChar c b
      rw [splitOnChar_cons, ih hxs]
      simp [hx]

/-- Claim C6, counterexample. On the token -5 the claim requires verbatim
pass-through (it is not of the digits-dash-digits shape), but the parser
raises a ValueError: the dash-containing token has an all-digit residue, so
it takes the range path, where int of the empty left side fails. -/
theorem c6_counterexample :
    parseRounds c6Bad = none ∧ parseRounds c6Bad ≠ some [['-', '5']] := by
  decide

/-- Claim C6, amended: the parser splits on commas and strips each token; a
token without a dash, or whose dash-free residue is not a nonempty digit
string, passes through verbatim; a token made of a nonempty digit string, a
dash and a nonempty digit string expands to the inclusive decimal range; a
dash-holding all-digit token of any other shape (such as -5) makes parsing
fail; the input of the example resolves to the tokens 1, 3, 4, 5. -/
theorem c6_theorem :
    (∀ t : List Char, t.contains '-' = false → expandTok t = some [t]) ∧
    (∀ t : List Char,
      pyIsDigit (t.filter (fun c => !(c == '-'))) = false →
      expandTok t = some [t]) ∧
    (∀ a b : List Char, pyIsDigit a = true → pyIsDigit b = true →
      expandTok (a ++ '-' :: b)
        = some ((rangeIncl (digitsToNat a) (digitsToNat b)).map natToChars)) ∧
    parseRounds c6Input = some [['1'], ['3'], ['4'], ['5']] := by
  refine ⟨?_, ?_, ?_, by decide⟩
  · intro t h
    unfold expandTok
    rw [h]
    simp
  · intro t h
    unfold expandTok
    rw [h]
    simp
  · intro a b ha hb
    have had : a.contains '-' = false := digits_no_dash ha
    have hbd : b.contains '-' = false := digits_no_dash hb
    have hcont : (a ++ '-' :: b).contains '-' = true :=
      contains_true_of_mem (List.mem_append_right a (List.mem_cons_self _ _))
    have hfa : a.filter (fun c => !(c == '-')) = a := by
      rw [List.filter_eq_self]
      intro x hx
      by_cases hxc : (x == '-') = true
      · exact absurd (eq_of_beq hxc ▸ hx) (notMem_of_contains_false had)
      · rw [bool_not_true hxc]
        rfl
    have hfb : b.filter (fun c => !(c == '-')) = b := by
      rw [List.filter_eq_self]
      intro x hx
      by_cases hxc : (x == '-') = true
      · exact absurd (eq_of_beq hxc ▸ hx) (notMem_of_contains_false hbd)
      · rw [bool_not_true hxc]
        rfl
    have hfilter : (a ++ '-' :: b).filter (fun c => !(c == '-')) = a ++ b := by
      rw [List.filter_append, hfa]
      show a ++ List.filter (fun c => !(c == '-')) ('-' :: b) = a ++ b
      rw [List.filter_cons]
      simp [hfb]
    have hdig : pyIsDigit (a ++ b) = true := by
      unfold pyIsDigit at ha hb ⊢
      rw [Bool.and_eq_true] at ha hb
      rw [Bool.and_eq_true]
      constructor
      · rcases ha with ⟨hne, _⟩
        cases a with
        | nil => exact absurd hne (by simp)
        | cons x xs => simp
      · rw [List.all_eq_true] at ha hb ⊢
        intro x hx
        rcases List.mem_append.1 hx with h1 | h1
        · exact ha.2 x h1
        · exact hb.2 x h1
    have hsplit : splitOnChar '-' (a ++ '-' :: b) = [a, b] := by
      rw [splitOnChar_mid b had, splitOnChar_no_sep hbd]
    have hane : (!a.isEmpty) = true := by
      unfold pyIsDigit at ha
      rw [Bool.and_eq_true] at ha
      exact ha.1
    have hbne : (!b.isEmpty) = true := by
      unfold pyIsDigit at hb
      rw [Bool.and_eq_true] at hb
      exact hb.1
    unfold expandTok
    rw [hcont, hfilter, hdig, hsplit]
    simp [hane, hbne]

/-- Claim C6, witness: the token 3-5 expands to the range tokens 3, 4, 5. -/
theorem c6_witness :
    expandTok (['3'] ++ '-' :: ['5'])
      = some ((rangeIncl (digitsToNat ['3']) (digitsToNat ['5'])).map natToChars) ∧
    (rangeIncl (digitsToNat ['3']) (digitsToNat ['5'])).map natToChars
      = [['3'], ['4'], ['5']] :=
  ⟨c6_theorem.2.2.1 ['3'] ['5'] (by decide) (by decide), by decide⟩

/-- Inserting a row permutes with consing it. -/
theorem insertRow_perm (r : StandingsRow) (l : List StandingsRow) :
    (insertRow r l).Perm (r :: l) := by
  induction l with
  | nil => exact List.Perm.refl _
  | cons x xs ih =>
      unfold insertRow
      by_cases h : rowKeyLE x r = true
      · rw [if_pos h]
        exact ((ih.cons x).trans (List.Perm.swap r x xs))
      · rw [if_neg h]

/-- The standings sort is a permutation of its input. -/
theorem sortRows_perm (l : List StandingsRow) : (sortRows l).Perm l := by
  induction l with
  | nil => exact List.Perm.refl _
  | cons x xs ih => exact (insertRow_perm x (sortRows xs)).trans (ih.cons x)

/-- Sums of pointwise sums split. -/
theorem sum_map_add {α : Type} (l : List α) (f g : α → Nat) :
    (l.map (fun x => f x + g x)).sum = (l.map f).sum + (l.map g).sum := by
  induction l with
  | nil => rfl
  | cons x xs ih =>
      simp only [List.map_cons, List.sum_cons, ih]
      omega

/-- Sums of rows of the shape w*3 + d split into 3*wins plus draws. -/
theorem sum_points_split {α : Type} (l : List α) (w d : α → Nat) :
    (l.map (fun x => w x * 3 + d x)).sum
      = 3 * (l.map w).sum + (l.map d).sum := by
  induction l with
  | nil => rfl
  | cons x xs ih =>
      simp only [List.map_cons, List.sum_cons, ih]
      omega

/-- countP respects pointwise equality of Bool predicates. -/
theorem countP_congr_eq {α : Type} {p q : α → Bool} {l : List α}
    (h : ∀ x ∈ l, p x = q x) : l.countP p = l.countP q :=
  List.countP_congr (fun x hx => by rw [h x hx])

/-- Over a duplicate-free team list holding x, the indicator sums to one. -/
theorem sum_indicator_one {teams : List Nat} (nd : teams.Nodup) {x : Nat}
    (hx : x ∈ teams) :
    (teams.map (fun t => if x == t then (1 : Nat) else 0)).sum = 1 := by
  induction teams with
  | nil => cases hx
  | cons a rest ih =>
      rw [List.nodup_cons] at nd
      simp only [List.map_cons, List.sum_cons]
      rcases List.mem_cons.1 hx with rfl | hxr
      · rw [if_pos (by simp)]
        have h0 : (rest.map (fun t => if x == t then (1 : Nat) else 0)).sum = 0 := by
          apply List.sum_eq_zero
          intro y hy
          rcases List.mem_map.1 hy with ⟨u, hu, rfl⟩
          have hne : ¬ x == u := by
            intro hc
            exact nd.1 (eq_of_beq hc ▸ hu)
          rw [if_neg hne]
        rw [h0]
      · have hne : ¬ x == a := by
          intro hc
          exact nd.1 (eq_of_beq hc ▸ hxr)
        rw [if_neg hne, ih nd.2 hxr]

/-- Summing keyed counts over a duplicate-free team list covering every
selected row counts each selected row exactly once. -/
theorem sum_countP_key (teams : List Nat) (nd : teams.Nodup)
    (ms : List MatchResult) (key : MatchResult → Nat) (p : MatchResult → Bool)
    (hkey : ∀ m ∈ ms, p m = true → key m ∈ teams) :
    (teams.map (fun t => ms.countP (fun m => key m == t && p m))).sum
      = ms.countP p := by
  induction ms with
  | nil => simp
  | cons m rest ih =>
      have hrest := ih (fun m2 hm hp => hkey m2 (List.mem_cons_of_mem _ hm) hp)
      simp only [List.countP_cons]
      rw [sum_map_add teams
        (fun t => rest.countP (fun m2 => key m2 == t && p m2))
        (fun t => if (key m == t && p m) = true then 1 else 0)]
      rw [hrest]
      by_cases hp : p m = true
      · have h1 : (teams.map
            (fun t => if (key m == t && p m) = true then (1 : Nat) else 0)).sum = 1 := by
          have hfe : (fun t => if (key m == t && p m) = true then (1 : Nat) else 0)
              = (fun t => if key m == t then (1 : Nat) else 0) := by
            funext t
            rw [hp, Bool.and_true]
          rw [hfe]
          exact sum_indicator_one nd (hkey m (List.mem_cons_self _ _) hp)
        rw [h1, hp]
        simp
      · have hp2 := bool_not_true hp
        have h0 : (teams.map
            (fun t => if (key m == t && p m) = true then (1 : Nat) else 0)).sum = 0 := by
          apply List.sum_eq_zero
          intro y hy
          rcases List.mem_map.1 hy with ⟨u, _, rfl⟩
          rw [hp2, Bool.and_false]
          rfl
        rw [h0, hp2]
        simp

/-- Two counts whose indicators add pointwise to a third indicator sum to
the third count. -/
theorem countP_add_split {α : Type} {p q r : α → Bool} :
    ∀ {l : List α},
      (∀ x ∈ l, (if p x = true then (1 : Nat) else 0)
          + (if q x = true then 1 else 0)
          = (if r x = true then 1 else 0)) →
      l.countP p + l.countP q = l.countP r := by
  intro l
  induction l with
  | nil => intro _; simp
  | cons x xs ih =>
      intro h
      have hx := h x (List.mem_cons_self _ _)
      have hxs := ih (fun y hy => h y (List.mem_cons_of_mem _ hy))
      simp only [List.countP_cons]
      omega

/-- SQL score equality is symmetric. -/
theorem optEq_symm (x y : Option Nat) : optEq x y = optEq y x := by
  cases x <;> cases y <;> simp [optEq, eq_comm]

/-- The wins projection of a standings row, written out. -/
theorem standingsRow_wins (ms : List MatchResult) (lg sn t : Nat) :
    (standingsRow ms lg sn t).wins
      = (ms.filter (fun m => m.homeTeam == t && isLeagueSeasonFinished lg sn m)).countP
          (fun m => optGt m.homeScore m.awayScore)
        + (ms.filter (fun m => m.awayTeam == t && isLeagueSeasonFinished lg sn m)).countP
          (fun m => optGt m.awayScore m.homeScore) := rfl

/-- The draws projection of a standings row, written out. -/
theorem standingsRow_draws (ms : List MatchResult) (lg sn t : Nat) :
    (standingsRow ms lg sn t).draws
      = (ms.filter (fun m => m.homeTeam == t && isLeagueSeasonFinished lg sn m)).countP
          (fun m => optEq m.homeScore m.awayScore)
        + (ms.filter (fun m => m.awayTeam == t && isLeagueSeasonFinished lg sn m)).countP
          (fun m => optEq m.awayScore m.homeScore) := rfl

/-- Points of a computed row are the row wins times three plus draws. -/
theorem standingsRow_points_wd (ms : List MatchResult) (lg sn t : Nat) :
    (standingsRow ms lg sn t).points
      = (standingsRow ms lg sn t).wins * 3 + (standingsRow ms lg sn t).draws := rfl

/-- Per finished match with both scores present, the two one-sided win
indicators add to the decisive-match indicator. -/
theorem win_pointwise (lg sn : Nat) (m : MatchResult)
    (hsc : isLeagueSeasonFinished lg sn m = true →
      m.homeScore.isSome = true ∧ m.awayScore.isSome = true) :
    (if (isLeagueSeasonFinished lg sn m && optGt m.homeScore m.awayScore) = true
        then (1 : Nat) else 0)
      + (if (isLeagueSeasonFinished lg sn m && optGt m.awayScore m.homeScore) = true
        then 1 else 0)
      = (if (isLeagueSeasonFinished lg sn m && !(optEq m.homeScore m.awayScore)) = true
        then 1 else 0) := by
  by_cases hb : isLeagueSeasonFinished lg sn m = true
  · rcases hsc hb with ⟨h1, h2⟩
    rcases Option.isSome_iff_exists.1 h1 with ⟨x, hx⟩
    rcases Option.isSome_iff_exists.1 h2 with ⟨y, hy⟩
    rw [hb, hx, hy]
    simp only [optGt, optEq, Bool.true_and]
    rcases Nat.lt_trichotomy x y with h | h | h
    · have hxy : ¬ x > y := by omega
      have hne : ¬ x = y := by omega
      simp [h, hxy, hne]
    · subst h
      simp
    · have hyx : ¬ y > x := by omega
      have hne : ¬ x = y := by omega
      simp [h, hyx, hne]
  · rw [bool_not_true hb]
    simp

/-- Summed wins over the league teams count the decisive finished matches. -/
theorem sum_teamWins (ms : List MatchResult) (lg sn : Nat) (teams : List Nat)
    (hnd : teams.Nodup)
    (hsc : ∀ m ∈ ms, isLeagueSeasonFinished lg sn m = true →
      m.homeScore.isSome = true ∧ m.awayScore.isSome = true)
    (hteams : ∀ m ∈ ms, isLeagueSeasonFinished lg sn m = true →
      m.homeTeam ∈ teams ∧ m.awayTeam ∈ teams) :
    (teams.map (fun t => (standingsRow ms lg sn t).wins)).sum
      = ms.countP (fun m => isLeagueSeasonFinished lg sn m
          && !(optEq m.homeScore m.awayScore)) := by
  simp only [standingsRow_wins]
  rw [sum_map_add teams
    (fun t => (ms.filter (fun m => m.homeTeam == t && isLeagueSeasonFinished lg sn m)).countP
        (fun m => optGt m.homeScore m.awayScore))
    (fun t => (ms.filter (fun m => m.awayTeam == t && isLeagueSeasonFinished lg sn m)).countP
        (fun m => optGt m.awayScore m.homeScore))]
  have hH : (teams.map
      (fun t => (ms.filter (fun m => m.homeTeam == t && isLeagueSeasonFinished lg sn m)).countP
        (fun m => optGt m.homeScore m.awayScore))).sum
      = ms.countP (fun m => isLeagueSeasonFinished lg sn m
          && optGt m.homeScore m.awayScore) := by
    have hcong : ∀ t : Nat,
        (ms.filter (fun m => m.homeTeam == t && isLeagueSeasonFinished lg sn m)).countP
          (fun m => optGt m.homeScore m.awayScore)
        = ms.countP (fun m => m.homeTeam == t
            && (isLeagueSeasonFinished lg sn m && optGt m.homeScore m.awayScore)) := by
      intro t
      rw [List.countP_filter]
      apply countP_congr_eq
      intro m _
      cases optGt m.homeScore m.awayScore <;> cases m.homeTeam == t
        <;> cases isLeagueSeasonFinished lg sn m <;> rfl
    simp only [hcong]
    refine sum_countP_key teams hnd ms (fun m => m.homeTeam) _ ?_
    intro m hm hp
    rw [Bool.and_eq_true] at hp
    exact (hteams m hm hp.1).1
  have hA : (teams.map
      (fun t => (ms.filter (fun m => m.awayTeam == t && isLeagueSeasonFinished lg sn m)).countP
        (fun m => optGt m.awayScore m.homeScore))).sum
      = ms.countP (fun m => isLeagueSeasonFinished lg sn m
          && optGt m.awayScore m.homeScore) := by
    have hcong : ∀ t : Nat,
        (ms.filter (fun m => m.awayTeam == t && isLeagueSeasonFinished lg sn m)).countP
          (fun m => optGt m.awayScore m.homeScore)
        = ms.countP (fun m => m.awayTeam == t
            && (isLeagueSeasonFinished lg sn m && optGt m.awayScore m.homeScore)) := by
      intro t
      rw [List.countP_filter]
      apply countP_congr_eq
      intro m _
      cases optGt m.awayScore m.homeScore <;> cases m.awayTeam == t
        <;> cases isLeagueSeasonFinished lg sn m <;> rfl
    simp only [hcong]
    refine sum_countP_key teams hnd ms (fun m => m.awayTeam) _ ?_
    intro m hm hp
    rw [Bool.and_eq_true] at hp
    exact (hteams m hm hp.1).2
  rw [hH, hA]
  exact countP_add_split (fun m hm => win_pointwise lg sn m (hsc m hm))

/-- Summed draws over the league teams count each drawn finished match
twice. -/
theorem sum_teamDraws (ms : List MatchResult) (lg sn : Nat) (teams : List Nat)
    (hnd : teams.Nodup)
    (hteams : ∀ m ∈ ms, isLeagueSeasonFinished lg sn m = true →
      m.homeTeam ∈ teams ∧ m.awayTeam ∈ teams) :
    (teams.map (fun t => (standingsRow ms lg sn t).draws)).sum
      = 2 * ms.countP (fun m => isLeagueSeasonFinished lg sn m
          && optEq m.homeScore m.awayScore) := by
  simp only [standingsRow_draws]
  rw [sum_map_add teams
    (fun t => (ms.filter (fun m => m.homeTeam == t && isLeagueSeasonFinished lg sn m)).countP
        (fun m => optEq m.homeScore m.awayScore))
    (fun t => (ms.filter (fun m => m.awayTeam == t && isLeagueSeasonFinished lg sn m)).countP
        (fun m => optEq m.awayScore m.homeScore))]
  have hH : (teams.map
      (fun t => (ms.filter (fun m => m.homeTeam == t && isLeagueSeasonFinished lg sn m)).countP
        (fun m => optEq m.homeScore m.awayScore))).sum
      = ms.countP (fun m => isLeagueSeasonFinished lg sn m
          && optEq m.homeScore m.awayScore) := by
    have hcong : ∀ t : Nat,
        (ms.filter (fun m => m.homeTeam == t && isLeagueSeasonFinished lg sn m)).countP
          (fun m => optEq m.homeScore m.awayScore)
        = ms.countP (fun m => m.homeTeam == t
            && (isLeagueSeasonFinished lg sn m && optEq m.homeScore m.awayScore)) := by
      intro t
      rw [List.countP_filter]
      apply countP_congr_eq
      intro m _
      cases optEq m.homeScore m.awayScore <;> cases m.homeTeam == t
        <;> cases isLeagueSeasonFinished lg sn m <;> rfl
    simp only [hcong]
    refine sum_countP_key teams hnd ms (fun m => m.homeTeam) _ ?_
    intro m hm hp
    rw [Bool.and_eq_true] at hp
    exact (hteams m hm hp.1).1
  have hA : (teams.map
      (fun t => (ms.filter (fun m => m.awayTeam == t && isLeagueSeasonFinished lg sn m)).countP
        (fun m => optEq m.awayScore m.homeScore))).sum
      = ms.countP (fun m => isLeagueSeasonFinished lg sn m
          && optEq m.homeScore m.awayScore) := by
    have hcong : ∀ t : Nat,
        (ms.filter (fun m => m.awayTeam == t && isLeagueSeasonFinished lg sn m)).countP
          (fun m => optEq m.awayScore m.homeScore)
        = ms.countP (fun m => m.awayTeam == t
            && (isLeagueSeasonFinished lg sn m && optEq m.homeScore m.awayScore)) := by
      intro t
      rw [List.countP_filter]
      apply countP_congr_eq
      intro m _
      rw [optEq_symm m.awayScore m.homeScore]
      cases optEq m.homeScore m.awayScore <;> cases m.awayTeam == t
        <;> cases isLeagueSeasonFinished lg sn m <;> rfl
    simp only [hcong]
    refine sum_countP_key teams hnd ms (fun m => m.awayTeam) _ ?_
    intro m hm hp
    rw [Bool.and_eq_true] at hp
    exact (hteams m hm hp.1).2
  rw [hH, hA]
  omega

/-- Claim C5: when every finished match of the league and season has both
scores present and both participating teams in the duplicate-free league
team set, every computed standings row has points = 3*wins + draws, and the
total of points over all rows is 3 times the decisive finished matches plus
2 times the drawn finished matches. -/
theorem c5_theorem (ms : List MatchResult) (lg sn : Nat) (teams : List Nat)
    (hnd : teams.Nodup)
    (hsc : ∀ m ∈ ms, isLeagueSeasonFinished lg sn m = true →
      m.homeScore.isSome = true ∧ m.awayScore.isSome = true)
    (hteams : ∀ m ∈ ms, isLeagueSeasonFinished lg sn m = true →
      m.homeTeam ∈ teams ∧ m.awayTeam ∈ teams) :
    (∀ r ∈ computeStandings ms lg sn teams, r.points = 3 * r.wins + r.draws) ∧
    ((computeStandings ms lg sn teams).map (fun r => r.points)).sum
      = 3 * ms.countP (fun m => isLeagueSeasonFinished lg sn m
            && !(optEq m.homeScore m.awayScore))
        + 2 * ms.countP (fun m => isLeagueSeasonFinished lg sn m
            && optEq m.homeScore m.awayScore) := by
  constructor
  · intro r hr
    have hr2 : r ∈ teams.map (standingsRow ms lg sn) :=
      ((sortRows_perm _).mem_iff).1 hr
    rcases List.mem_map.1 hr2 with ⟨t, _, rfl⟩
    rw [standingsRow_points_wd]
    omega
  · have hperm : ((computeStandings ms lg sn teams).map (fun r => r.points)).Perm
        ((teams.map (standingsRow ms lg sn)).map (fun r => r.points)) :=
      List.Perm.map _ (sortRows_perm _)
    rw [List.Perm.sum_eq hperm, List.map_map]
    show ((teams.map (fun t => (standingsRow ms lg sn t).points)).sum = _)
    simp only [standingsRow_points_wd]
    rw [sum_points_split teams
      (fun t => (standingsRow ms lg sn t).wins)
      (fun t => (standingsRow ms lg sn t).draws)]
    rw [sum_teamWins ms lg sn teams hnd hsc hteams,
      sum_teamDraws ms lg sn teams hnd hteams]

/-- Claim C5, witness: one finished 3-1 match between the two league teams
gives a points total of three, matching 3 decisive plus 0 drawn. -/
theorem c5_witness :
    ((computeStandings [c5Match] 1 1 [1, 2]).map (fun r => r.points)).sum
      = 3 * [c5Match].countP (fun m => isLeagueSeasonFinished 1 1 m
            && !(optEq m.homeScore m.awayScore))
        + 2 * [c5Match].countP (fun m => isLeagueSeasonFinished 1 1 m
            && optEq m.homeScore m.awayScore) ∧
    ((computeStandings [c5Match] 1 1 [1, 2]).map (fun r => r.points)).sum = 3 :=
  ⟨(c5_theorem [c5Match] 1 1 [1, 2] (by decide) (by decide) (by decide)).2,
   by decide⟩

/-- Claim C1, witness: instantiation of the amended theorem on a finished
2-1 fixture with an exact 2-1 prediction, giving 5 points. -/
theorem c1_witness :
    calculatePoints
      { user := 1
        fixture := { statusLong := some "Match Finished", date := 0, league := 1
                     homeGoals := some 2, awayGoals := some 1 }
        predictedResult := 'H', predictedHomeScore := some 2
        predictedAwayScore := some 1, pointsEarned := 0 }
      = (5, { user := 1
              fixture := { statusLong := some "Match Finished", date := 0, league := 1
                           homeGoals := some 2, awayGoals := some 1 }
              predictedResult := 'H', predictedHomeScore := some 2
              predictedAwayScore := some 1, pointsEarned := 5 }) :=
  ((c1_theorem _).2 2 1 (by decide) rfl rfl).1 ⟨rfl, rfl⟩

end FootballApp
